import Mathlib

/-!
Verification of the multi-source text-aggregation pipeline implemented in
src/Tehtava4/llm_feeder.py.

The Python functions are shallowly embedded as Lean definitions.  Python
strings are modelled as lists of Unicode characters (PyStr), filesystem and
network effects as explicit environment records, and Python exceptions as an
Except monad over an explicit error type.
-/

/-- Python strings, modelled as lists of Unicode characters. -/
abbrev PyStr := List Char

/-- View a Lean string literal as a Python string value. -/
def pystr (s : String) : PyStr := s.data

/-- Characters stripped by Python str.strip() with no argument, i.e. the set
accepted by str.isspace (ASCII whitespace, the C1 control whitespace block,
NEL, NBSP and the Unicode space separators). -/
def isPySpace (c : Char) : Bool :=
  decide ((9 ≤ c.toNat ∧ c.toNat ≤ 13) ∨ (28 ≤ c.toNat ∧ c.toNat ≤ 31) ∨
    c.toNat = 32 ∨ c.toNat = 133 ∨ c.toNat = 160 ∨ c.toNat = 5760 ∨
    (8192 ≤ c.toNat ∧ c.toNat ≤ 8202) ∨ c.toNat = 8232 ∨ c.toNat = 8233 ∨
    c.toNat = 8239 ∨ c.toNat = 8287 ∨ c.toNat = 12288)

/-- Line-boundary characters of Python str.splitlines: LF, VT, FF, CR,
FS, GS, RS, NEL, LINE SEPARATOR and PARAGRAPH SEPARATOR ("\r\n" is handled
as a single boundary by the splitter itself). -/
def isLineBoundary (c : Char) : Bool :=
  decide (c.toNat = 10 ∨ c.toNat = 11 ∨ c.toNat = 12 ∨ c.toNat = 13 ∨
    c.toNat = 28 ∨ c.toNat = 29 ∨ c.toNat = 30 ∨ c.toNat = 133 ∨
    c.toNat = 8232 ∨ c.toNat = 8233)

/-- Worker for Python str.splitlines: acc holds the characters of the
current line in reverse.  A trailing line is emitted only when non-empty,
matching Python (for example "a\n".splitlines() has one element). -/
def splitlinesGo (acc : List Char) : List Char → List PyStr
  | [] => if acc = [] then [] else [acc.reverse]
  | [c] => if isLineBoundary c then [acc.reverse] else [(c :: acc).reverse]
  | c1 :: c2 :: rest =>
    if c1 = '\r' ∧ c2 = '\n' then acc.reverse :: splitlinesGo [] rest
    else if isLineBoundary c1 then acc.reverse :: splitlinesGo [] (c2 :: rest)
    else splitlinesGo (c1 :: acc) (c2 :: rest)

/-- Python str.splitlines() (keepends absent). -/
def splitlines (s : PyStr) : List PyStr := splitlinesGo [] s

/-- Python str.strip() with no argument: remove leading and trailing
whitespace characters. -/
def pyStrip (s : PyStr) : PyStr :=
  List.rdropWhile isPySpace (List.dropWhile isPySpace s)

/-- Python "sep".join(parts). -/
def pyJoin (sep : List Char) : List PyStr → PyStr
  | [] => []
  | [l] => l
  | l :: l2 :: rest => l ++ sep ++ pyJoin sep (l2 :: rest)

/-- normalize_text from llm_feeder.py:
lines = [line.strip() for line in text.splitlines()];
return "\n".join(line for line in lines if line). -/
def normalize_text (s : PyStr) : PyStr :=
  pyJoin ['\n'] (((splitlines s).map pyStrip).filter (fun l => !l.isEmpty))

/-- Python exceptions raised by llm_feeder.py, keyed by kind, with the
message str(exc) would print. -/
inductive PyErr where
  | fileNotFound (msg : PyStr)
  | valueError (msg : PyStr)
  | runtimeError (msg : PyStr)
  | osError (msg : PyStr)
  | httpError (msg : PyStr)
deriving DecidableEq

/-- The message printed for an exception by the top-level handler
(str(exc) for these exception classes). -/
def pyErrMsg : PyErr → PyStr
  | .fileNotFound m => m
  | .valueError m => m
  | .runtimeError m => m
  | .osError m => m
  | .httpError m => m

/-- The SourceContent dataclass of llm_feeder.py. -/
structure SourceContent where
  label : PyStr
  text : PyStr
deriving DecidableEq

/-- Decidable equality of embedded results, so that concrete runs can be
checked by evaluation. -/
instance instDecEqExcept {e a : Type} [DecidableEq e] [DecidableEq a] :
    DecidableEq (Except e a)
  | .error x, .error y =>
    if h : x = y then .isTrue (h ▸ rfl) else .isFalse (fun hh => h (Except.error.inj hh))
  | .error _, .ok _ => .isFalse (fun hh => Except.noConfusion hh)
  | .ok _, .error _ => .isFalse (fun hh => Except.noConfusion hh)
  | .ok x, .ok y =>
    if h : x = y then .isTrue (h ▸ rfl) else .isFalse (fun hh => h (Except.ok.inj hh))

/-- Continuation-byte test for UTF-8 (0x80..0xBF). -/
def isCont (b : Nat) : Bool := decide (128 ≤ b ∧ b ≤ 191)

/-- What Python's utf-8 codec emits for one undecodable unit:
U+FFFD under errors="replace", nothing under errors="ignore". -/
def errOut (repl : Bool) : List Char := if repl then ['�'] else []

/-- Validity of the second byte after a three-byte lead (excludes overlong
encodings after 0xE0 and surrogates after 0xED). -/
def cont3ok (b b2 : Nat) : Bool :=
  if b = 224 then decide (160 ≤ b2 ∧ b2 ≤ 191)
  else if b = 237 then decide (128 ≤ b2 ∧ b2 ≤ 159)
  else isCont b2

/-- Validity of the second byte after a four-byte lead (excludes overlong
encodings after 0xF0 and values above U+10FFFF after 0xF4). -/
def cont4ok (b b2 : Nat) : Bool :=
  if b = 240 then decide (144 ≤ b2 ∧ b2 ≤ 191)
  else if b = 244 then decide (128 ≤ b2 ∧ b2 ≤ 143)
  else isCont b2

/-- Python bytes.decode("utf-8", errors=...) on a byte list.  repl selects
errors="replace" (emit U+FFFD) versus errors="ignore" (drop).  On an invalid
sequence the maximal valid subpart is consumed as a single error unit and
decoding resumes at the next byte, as CPython's utf-8 codec does. -/
def pyDecodeUtf8 (repl : Bool) : List Nat → List Char
  | [] => []
  | b :: rest =>
    if b ≤ 127 then Char.ofNat b :: pyDecodeUtf8 repl rest
    else if 194 ≤ b ∧ b ≤ 223 then
      match rest with
      | b2 :: rest2 =>
        if isCont b2 then
          Char.ofNat ((b - 192) * 64 + (b2 - 128)) :: pyDecodeUtf8 repl rest2
        else errOut repl ++ pyDecodeUtf8 repl (b2 :: rest2)
      | [] => errOut repl
    else if 224 ≤ b ∧ b ≤ 239 then
      match rest with
      | b2 :: rest2 =>
        if cont3ok b b2 then
          match rest2 with
          | b3 :: rest3 =>
            if isCont b3 then
              Char.ofNat ((b - 224) * 4096 + (b2 - 128) * 64 + (b3 - 128)) ::
                pyDecodeUtf8 repl rest3
            else errOut repl ++ pyDecodeUtf8 repl (b3 :: rest3)
          | [] => errOut repl
        else errOut repl ++ pyDecodeUtf8 repl (b2 :: rest2)
      | [] => errOut repl
    else if 240 ≤ b ∧ b ≤ 244 then
      match rest with
      | b2 :: rest2 =>
        if cont4ok b b2 then
          match rest2 with
          | b3 :: rest3 =>
            if isCont b3 then
              match rest3 with
              | b4 :: rest4 =>
                if isCont b4 then
                  Char.ofNat ((b - 240) * 262144 + (b2 - 128) * 4096 +
                    (b3 - 128) * 64 + (b4 - 128)) :: pyDecodeUtf8 repl rest4
                else errOut repl ++ pyDecodeUtf8 repl (b4 :: rest4)
              | [] => errOut repl
            else errOut repl ++ pyDecodeUtf8 repl (b3 :: rest3)
          | [] => errOut repl
        else errOut repl ++ pyDecodeUtf8 repl (b2 :: rest2)
      | [] => errOut repl
    else errOut repl ++ pyDecodeUtf8 repl rest

/-- The filesystem and network environment of one run.  resolve models
str(Path(raw).expanduser().resolve()) under the process working directory;
pathExists is Path.exists on the resolved path; fileBytes is the raw byte
content of the file at a resolved path.  strictText, csvText, docxText and
pdfText are the results of Path.read_text(encoding="utf-8"), read_csv,
read_docx and read_pdf — the last three parse with the csv module,
python-docx and PyPDF2, which are outside the embedded fragment — and
urlText is the result of load_url (requests plus BeautifulSoup). -/
structure Env where
  resolve : PyStr → PyStr
  pathExists : PyStr → Bool
  fileBytes : PyStr → List Nat
  strictText : PyStr → Except PyErr PyStr
  csvText : PyStr → Except PyErr PyStr
  docxText : PyStr → Except PyErr PyStr
  pdfText : PyStr → Except PyErr PyStr
  urlText : PyStr → Except PyErr PyStr

/-- Final path component, as pathlib's Path.name for the resolved absolute
paths this tool feeds it (no trailing slash). -/
def pathName (p : PyStr) : PyStr := (p.reverse.takeWhile (fun c => c ≠ '/')).reverse

/-- pathlib's Path.suffix: the extension of the final component, empty when
the last dot is leading or trailing. -/
def pySuffix (p : PyStr) : PyStr :=
  let name := pathName p
  let tl := name.reverse.takeWhile (fun c => c ≠ '.')
  if 0 < tl.length ∧ tl.length + 1 < name.length then '.' :: tl.reverse else []

/-- str.lower restricted to the ASCII fold, which is exact on the extension
literals the dispatch compares against. -/
def pyLower (s : PyStr) : PyStr := s.map Char.toLower

/-- load_file from llm_feeder.py: dispatch on the lower-cased extension of
the (resolved) path; unrecognized extensions fall back to
read_text(encoding="utf-8", errors="ignore"). -/
def load_file (env : Env) (p : PyStr) : Except PyErr PyStr :=
  let sfx := pyLower (pySuffix p)
  if sfx = pystr ".txt" ∨ sfx = pystr ".md" ∨ sfx = pystr ".rst" then env.strictText p
  else if sfx = pystr ".csv" then env.csvText p
  else if sfx = pystr ".docx" then env.docxText p
  else if sfx = pystr ".pdf" then env.pdfText p
  else .ok (pyDecodeUtf8 false (env.fileBytes p))

/-- Python str.startswith with a single pattern argument. -/
def pyStartsWith (s p : PyStr) : Bool := decide (s.take p.length = p)

/-- raw.startswith(("http://", "https://")) from load_sources. -/
def startsHttp (raw : PyStr) : Bool :=
  pyStartsWith raw (pystr "http://") || pyStartsWith raw (pystr "https://")

/-- The text/label acquisition of one input in load_sources: URLs are
fetched and keep the raw reference as label; paths are resolved, must
exist, are read by load_file, and the resolved path becomes the label. -/
def source_raw (env : Env) (raw : PyStr) : Except PyErr (PyStr × PyStr) :=
  if startsHttp raw then (env.urlText raw).map (fun t => (t, raw))
  else
    let path := env.resolve raw
    if env.pathExists path then (load_file env path).map (fun t => (t, path))
    else .error (.fileNotFound (pystr "Input not found: " ++ raw))

/-- Python s[:k] for an int k (negative k slices from the end). -/
def pySliceTo (s : PyStr) (k : Int) : PyStr :=
  if 0 ≤ k then s.take k.toNat else s.take (s.length - (-k).toNat)

/-- The truncation step of load_sources:
if max_chars and len(text) > max_chars: text = text[:max_chars]. -/
def truncateTo (maxChars : Int) (t : PyStr) : PyStr :=
  if maxChars ≠ 0 ∧ (t.length : Int) > maxChars then pySliceTo t maxChars else t

/-- load_sources from llm_feeder.py (the inputs list is the last argument;
max_chars comes first so the recursion is on the inputs). -/
def load_sources (env : Env) (maxChars : Int) : List PyStr → Except PyErr (List SourceContent)
  | [] => .ok []
  | raw :: rest =>
    match source_raw env raw with
    | .error e => .error e
    | .ok (text0, label) =>
      let text := truncateTo maxChars (normalize_text text0)
      if pyStrip text = [] then
        .error (.valueError (pystr "No textual content extracted from " ++ raw))
      else
        match load_sources env maxChars rest with
        | .error e => .error e
        | .ok srcs => .ok (⟨label, text⟩ :: srcs)

/-- The default instruction of build_prompt. -/
def defaultInstruction : PyStr :=
  pystr "Summarize the following sources. Highlight key points and common themes."

/-- Python query or default-instruction: None and the empty string are both
falsy, so both select the default. -/
def instructionOf (query : Option PyStr) : PyStr :=
  match query with
  | some q => if q = [] then defaultInstruction else q
  | none => defaultInstruction

/-- One context block: f-string "Source {idx}: {label}\n{text}". -/
def sourceBlock (idx : Nat) (s : SourceContent) : PyStr :=
  pystr "Source " ++ (Nat.repr idx).data ++ pystr ": " ++ s.label ++ ('\n' :: s.text)

/-- The loop of build_prompt: enumerate(sources, start=1) producing one
block per source. -/
def buildParts (idx : Nat) : List SourceContent → List PyStr
  | [] => []
  | s :: rest => sourceBlock idx s :: buildParts (idx + 1) rest

/-- The fixed delimiter joining context blocks. -/
def promptSep : PyStr := pystr "\n\n---\n\n"

/-- build_prompt from llm_feeder.py:
return f"{instruction}\n\nContext:\n{context}". -/
def build_prompt (query : Option PyStr) (sources : List SourceContent) : PyStr :=
  instructionOf query ++ pystr "\n\nContext:\n" ++ pyJoin promptSep (buildParts 1 sources)

/-- Environment of call_llm: the process environment variables and the
chat-completions endpoint.  respond model prompt stands for constructing
the OpenAI client and issuing the single request of call_llm; an error
value is a transport or API exception, ok none is a response whose first
choice has no message or a null content, ok (some c) is a reply with
content c. -/
structure LLMEnv where
  environ : PyStr → Option PyStr
  respond : PyStr → PyStr → Except PyErr (Option PyStr)

/-- Message of the missing-credential RuntimeError. -/
def missingKeyMsg : PyStr :=
  pystr "Set the OPENAI_API_KEY environment variable to use this tool."

/-- Message of the empty-reply RuntimeError. -/
def emptyReplyMsg : PyStr := pystr "LLM returned an empty response."

/-- call_llm from llm_feeder.py.  The credential check reads
os.environ.get("OPENAI_API_KEY") and treats both an unset and an empty
variable as missing, before any request is made. -/
def call_llm (env : LLMEnv) (prompt model : PyStr) : Except PyErr PyStr :=
  match env.environ (pystr "OPENAI_API_KEY") with
  | none => .error (.runtimeError missingKeyMsg)
  | some k =>
    if k = [] then .error (.runtimeError missingKeyMsg)
    else
      match env.respond model prompt with
      | .error e => .error e
      | .ok none => .error (.runtimeError emptyReplyMsg)
      | .ok (some c) =>
        if c = [] then .error (.runtimeError emptyReplyMsg)
        else .ok (pyStrip c)

/-- The whole world one invocation runs in: filesystem, model endpoint and
the output writer.  writeFile path text models Path.write_text(text,
encoding="utf-8") at a resolved path and may fail; printing to stdout is
modelled as always succeeding. -/
structure World where
  fs : Env
  llm : LLMEnv
  writeFile : PyStr → PyStr → Except PyErr Unit

/-- write_output from llm_feeder.py. -/
def write_output (w : World) (text : PyStr) (outputPath : Option PyStr) : Except PyErr Unit :=
  match outputPath with
  | some op => w.writeFile (w.fs.resolve op) text
  | none => .ok ()

/-- The argparse namespace of one invocation. -/
structure Args where
  inputs : List PyStr
  query : Option PyStr
  output : Option PyStr
  model : PyStr
  maxChars : Int

/-- The body of the try block in main: load, build, call, write. -/
def runPipeline (w : World) (a : Args) : Except PyErr Unit :=
  match load_sources w.fs a.maxChars a.inputs with
  | .error e => .error e
  | .ok sources =>
    match call_llm w.llm (build_prompt a.query sources) a.model with
    | .error e => .error e
    | .ok resp => write_output w resp a.output

/-- main from llm_feeder.py after argument parsing: the single except
handler prints one "error: ..." line to stderr and returns 1; on success it
returns 0.  The result is the exit code paired with the stderr lines. -/
def mainFn (w : World) (a : Args) : Nat × List PyStr :=
  match runPipeline w a with
  | .ok _ => (0, [])
  | .error e => (1, [pystr "error: " ++ pyErrMsg e])

/-- pat occurs in s starting exactly at index i. -/
def occursAt (pat s : PyStr) (i : Nat) : Prop := (s.drop i).take pat.length = pat

/-- Decidable substring containment. -/
def containsSubstr (pat s : PyStr) : Bool :=
  (List.range (s.length + 1)).any (fun i => decide ((s.drop i).take pat.length = pat))

/-- Fixture: a filesystem whose working directory is /home/user, holding a
file notes.txt with content "Hello\n\nWorld" (UTF-8 text). -/
def envNotes : Env where
  resolve := fun r => if r = pystr "notes.txt" then pystr "/home/user/notes.txt" else r
  pathExists := fun _ => true
  fileBytes := fun _ => []
  strictText := fun _ => .ok (pystr "Hello\n\nWorld")
  csvText := fun _ => .ok []
  docxText := fun _ => .ok []
  pdfText := fun _ => .ok []
  urlText := fun _ => .ok []

/-- Fixture: a filesystem holding a file /data/blob.bin whose bytes are
0xFF 0x61 — an undecodable byte followed by ASCII "a". -/
def envBin : Env where
  resolve := fun r => r
  pathExists := fun _ => true
  fileBytes := fun _ => [255, 97]
  strictText := fun _ => .ok []
  csvText := fun _ => .ok []
  docxText := fun _ => .ok []
  pdfText := fun _ => .ok []
  urlText := fun _ => .ok []

/-- Fixture: a filesystem (working directory /tmp) holding good.txt with
content "Hello" and blank.txt whose content "  
 " is whitespace only. -/
def envBlank : Env where
  resolve := fun r => pystr "/tmp/" ++ r
  pathExists := fun _ => true
  fileBytes := fun _ => []
  strictText := fun p => if p = pystr "/tmp/good.txt" then .ok (pystr "Hello")
    else .ok (pystr "  
 ")
  csvText := fun _ => .ok []
  docxText := fun _ => .ok []
  pdfText := fun _ => .ok []
  urlText := fun _ => .ok []

/-- Fixture: a process environment with no OPENAI_API_KEY, and an endpoint
that would answer "reply" if it were ever reached. -/
def llmNoKey : LLMEnv where
  environ := fun _ => none
  respond := fun _ _ => .ok (some (pystr "reply"))

/-- Fixture world for the failing-credential run. -/
def worldNoKey : World where
  fs := envNotes
  llm := llmNoKey
  writeFile := fun _ _ => .ok ()

/-- Fixture arguments: llm_feeder.py notes.txt with --max-chars 100 and all
other options at their defaults. -/
def argsNotes : Args where
  inputs := [pystr "notes.txt"]
  query := none
  output := none
  model := pystr "gpt-4o-mini"
  maxChars := 100

example : splitlines (pystr "a\r\nb\nc") = [pystr "a", pystr "b", pystr "c"] := by decide
example : splitlines (pystr "a\n") = [pystr "a"] := by decide
example : splitlines (pystr "a\n\n") = [pystr "a", pystr ""] := by decide
example : splitlines (pystr "") = [] := by decide
example : splitlines (pystr "\n") = [pystr ""] := by decide
example : pyStrip (pystr "  a b \t") = pystr "a b" := by decide
example : normalize_text (pystr " Hello \n\n  World ") = pystr "Hello\nWorld" := by decide
example : normalize_text (pystr "Hello\n\nWorld") = pystr "Hello\nWorld" := by decide

/-! ### Properties of the normalizer -/

theorem boundary_isPySpace {c : Char} (h : isLineBoundary c = true) : isPySpace c = true := by
  simp only [isLineBoundary, decide_eq_true_eq] at h
  simp only [isPySpace, decide_eq_true_eq]
  omega

theorem splitlinesGo_line (l : List Char) : ∀ acc : List Char,
    (∀ c ∈ l, isLineBoundary c = false) →
    splitlinesGo acc l = if acc = [] ∧ l = [] then [] else [acc.reverse ++ l] := by
  induction l with
  | nil => intro acc _; simp [splitlinesGo]
  | cons c l' IH =>
    intro acc h
    have hc : isLineBoundary c = false := h c (List.mem_cons_self c l')
    cases l' with
    | nil => simp [splitlinesGo, hc]
    | cons c2 r =>
      have hcr : c ≠ '\r' := by
        intro hh
        rw [hh] at hc
        exact absurd hc (by decide)
      simp only [splitlinesGo]
      rw [if_neg (fun hand => hcr hand.1), if_neg (by simp [hc])]
      rw [IH (c :: acc) (fun x hx => h x (List.mem_cons_of_mem c hx))]
      simp [List.append_assoc]

theorem splitlinesGo_append (l : List Char) : ∀ (acc rest : List Char),
    (∀ c ∈ l, isLineBoundary c = false) →
    splitlinesGo acc (l ++ '\n' :: rest) = (acc.reverse ++ l) :: splitlinesGo [] rest := by
  induction l with
  | nil =>
    intro acc rest _
    have h1 : isLineBoundary '\n' = true := by decide
    have h2 : ('\n' : Char) ≠ '\r' := by decide
    cases rest with
    | nil => simp [splitlinesGo, h1]
    | cons r1 rr => simp [splitlinesGo, h1, h2]
  | cons c l' IH =>
    intro acc rest h
    have hc : isLineBoundary c = false := h c (List.mem_cons_self c l')
    have hcr : c ≠ '\r' := by
      intro hh
      rw [hh] at hc
      exact absurd hc (by decide)
    have hrest : ∀ x ∈ l', isLineBoundary x = false :=
      fun x hx => h x (List.mem_cons_of_mem c hx)
    cases l' with
    | nil =>
      simp only [List.nil_append, List.cons_append]
      simp only [splitlinesGo]
      rw [if_neg (fun hand => hcr hand.1), if_neg (by simp [hc])]
      rw [show ('\n' :: rest) = ([] ++ '\n' :: rest) from rfl, IH (c :: acc) rest hrest]
      simp
    | cons d l'' =>
      simp only [List.cons_append]
      simp only [splitlinesGo]
      rw [if_neg (fun hand => hcr hand.1), if_neg (by simp [hc])]
      rw [show (d :: (l'' ++ '\n' :: rest)) = ((d :: l'') ++ '\n' :: rest) from rfl,
        IH (c :: acc) rest hrest]
      simp [List.append_assoc]

theorem splitlinesGo_bf : ∀ (acc s : List Char), (∀ c ∈ acc, isLineBoundary c = false) →
    ∀ l ∈ splitlinesGo acc s, ∀ c ∈ l, isLineBoundary c = false := by
  intro acc s
  induction acc, s using splitlinesGo.induct with
  | case1 =>
    intro _ l hl
    simp [splitlinesGo] at hl
  | case2 acc hne =>
    intro hacc l hl c hc
    simp only [splitlinesGo, if_neg hne, List.mem_singleton] at hl
    subst hl
    exact hacc c (List.mem_reverse.mp hc)
  | case3 acc c0 hbd =>
    intro hacc l hl c hc
    simp only [splitlinesGo, if_pos hbd, List.mem_singleton] at hl
    subst hl
    exact hacc c (List.mem_reverse.mp hc)
  | case4 acc c0 hbd =>
    intro hacc l hl c hc
    simp only [splitlinesGo, if_neg hbd, List.mem_singleton] at hl
    subst hl
    rcases List.mem_cons.mp (List.mem_reverse.mp hc) with h1 | h1
    · subst h1
      simpa using hbd
    · exact hacc c h1
  | case5 acc c1 c2 rest hcond IH =>
    intro hacc l hl c hc
    simp only [splitlinesGo, if_pos hcond] at hl
    rcases List.mem_cons.mp hl with h1 | h1
    · subst h1
      exact hacc c (List.mem_reverse.mp hc)
    · exact IH (by simp) l h1 c hc
  | case6 acc c1 c2 rest hcond hbd IH =>
    intro hacc l hl c hc
    simp only [splitlinesGo, if_neg hcond, if_pos hbd] at hl
    rcases List.mem_cons.mp hl with h1 | h1
    · subst h1
      exact hacc c (List.mem_reverse.mp hc)
    · exact IH (by simp) l h1 c hc
  | case7 acc c1 c2 rest hcond hbd IH =>
    intro hacc l hl c hc
    simp only [splitlinesGo, if_neg hcond, if_neg hbd] at hl
    refine IH ?_ l hl c hc
    intro x hx
    rcases List.mem_cons.mp hx with h1 | h1
    · subst h1
      simpa using hbd
    · exact hacc x h1

theorem splitlines_bf (s : List Char) :
    ∀ l ∈ splitlines s, ∀ c ∈ l, isLineBoundary c = false :=
  splitlinesGo_bf [] s (by simp)

theorem dropWhile_head_false {p : Char → Bool} {c : Char} {t : List Char} :
    ∀ {s : List Char}, List.dropWhile p s = c :: t → p c = false := by
  intro s
  induction s with
  | nil => intro h; simp [List.dropWhile] at h
  | cons a s' IH =>
    intro h
    rw [List.dropWhile_cons] at h
    by_cases hp : p a
    · rw [if_pos hp] at h
      exact IH h
    · rw [if_neg hp] at h
      injection h with h1 _
      subst h1
      simpa using hp

theorem rdropWhile_cons_false {p : Char → Bool} {c : Char} (t : List Char) (hc : p c = false) :
    List.rdropWhile p (c :: t) = c :: List.rdropWhile p t := by
  unfold List.rdropWhile
  rw [List.reverse_cons, List.dropWhile_append]
  by_cases he : (List.dropWhile p t.reverse).isEmpty
  · rw [if_pos he]
    have ht : List.dropWhile p t.reverse = [] := List.isEmpty_iff.mp he
    simp [List.dropWhile_cons, hc, ht]
  · rw [if_neg he]
    rw [List.reverse_append]
    simp

theorem pyStrip_eq (s : PyStr) :
    pyStrip s = [] ∨ ∃ c t, List.dropWhile isPySpace s = c :: t ∧ isPySpace c = false ∧
      pyStrip s = c :: List.rdropWhile isPySpace t := by
  cases h : List.dropWhile isPySpace s with
  | nil =>
    left
    unfold pyStrip
    rw [h]
    simp [List.rdropWhile]
  | cons c t =>
    right
    have hc := dropWhile_head_false h
    refine ⟨c, t, rfl, hc, ?_⟩
    unfold pyStrip
    rw [h, rdropWhile_cons_false t hc]

theorem pyStrip_idem (s : PyStr) : pyStrip (pyStrip s) = pyStrip s := by
  rcases pyStrip_eq s with h | ⟨c, t, _, hc, h⟩
  · rw [h]
    rfl
  · rw [h]
    unfold pyStrip
    rw [List.dropWhile_cons, if_neg (by simp [hc])]
    rw [rdropWhile_cons_false _ hc, List.rdropWhile_idempotent]

theorem mem_pyStrip {s : PyStr} {c : Char} (h : c ∈ pyStrip s) : c ∈ s := by
  unfold pyStrip at h
  unfold List.rdropWhile at h
  rw [List.mem_reverse] at h
  have h2 := (List.dropWhile_sublist _).mem h
  rw [List.mem_reverse] at h2
  exact (List.dropWhile_sublist _).mem h2

theorem pyStrip_eq_nil_iff {s : PyStr} : pyStrip s = [] ↔ ∀ c ∈ s, isPySpace c = true := by
  constructor
  · intro h c hc
    have hsplit : List.takeWhile isPySpace s ++ List.dropWhile isPySpace s = s :=
      List.takeWhile_append_dropWhile isPySpace s
    rcases List.mem_append.mp (by rw [hsplit]; exact hc) with h1 | h2
    · exact List.mem_takeWhile_imp h1
    · exact List.rdropWhile_eq_nil_iff.mp h c h2
  · intro h
    unfold pyStrip
    have hd : List.dropWhile isPySpace s = [] :=
      List.dropWhile_eq_nil_iff.mpr (fun x hx => h x hx)
    rw [hd]
    simp [List.rdropWhile]

theorem splitlines_pyJoin : ∀ L : List PyStr,
    (∀ l ∈ L, ∀ c ∈ l, isLineBoundary c = false) → (∀ l ∈ L, l ≠ []) →
    splitlines (pyJoin ['\n'] L) = L := by
  intro L
  induction L with
  | nil => intro _ _; rfl
  | cons l L' IH =>
    intro hbf hne
    cases L' with
    | nil =>
      show splitlines l = [l]
      unfold splitlines
      rw [splitlinesGo_line l [] (hbf l (by simp))]
      have h0 : l ≠ [] := hne l (by simp)
      simp [h0]
    | cons l2 R =>
      show splitlines (l ++ ['\n'] ++ pyJoin ['\n'] (l2 :: R)) = l :: l2 :: R
      unfold splitlines
      rw [List.append_assoc, List.singleton_append]
      rw [splitlinesGo_append l [] _ (hbf l (by simp))]
      rw [show splitlinesGo [] (pyJoin ['\n'] (l2 :: R)) =
        splitlines (pyJoin ['\n'] (l2 :: R)) from rfl]
      rw [IH (fun x hx => hbf x (List.mem_cons_of_mem l hx))
        (fun x hx => hne x (List.mem_cons_of_mem l hx))]
      simp

theorem normalize_parts_ok (s : PyStr) :
    ∀ l ∈ ((splitlines s).map pyStrip).filter (fun l => !l.isEmpty),
      (∀ c ∈ l, isLineBoundary c = false) ∧ l ≠ [] := by
  intro l hl
  obtain ⟨hmem, hpass⟩ := List.mem_filter.mp hl
  obtain ⟨l0, hl0, rfl⟩ := List.mem_map.mp hmem
  constructor
  · intro c hc
    exact splitlines_bf s l0 hl0 c (mem_pyStrip hc)
  · intro hn
    rw [hn] at hpass
    simp at hpass

theorem normalize_lines (s : PyStr) :
    splitlines (normalize_text s) = ((splitlines s).map pyStrip).filter (fun l => !l.isEmpty) := by
  unfold normalize_text
  exact splitlines_pyJoin _ (fun l hl => (normalize_parts_ok s l hl).1)
    (fun l hl => (normalize_parts_ok s l hl).2)

/-- C5: the Normalizer is idempotent — normalizing already-normalized text
returns the same text — and it preserves the order of non-empty lines: the
lines of the normalized text are exactly the stripped non-empty lines of
the input, in input order, with no reordering. -/
theorem c5_normalize_idempotent (s : PyStr) :
    normalize_text (normalize_text s) = normalize_text s ∧
    splitlines (normalize_text s) =
      ((splitlines s).map pyStrip).filter (fun l => !l.isEmpty) := by
  refine ⟨?_, normalize_lines s⟩
  have hmap : (((splitlines s).map pyStrip).filter (fun l => !l.isEmpty)).map pyStrip =
      ((splitlines s).map pyStrip).filter (fun l => !l.isEmpty) := by
    have h : ∀ a ∈ ((splitlines s).map pyStrip).filter (fun l => !l.isEmpty),
        pyStrip a = id a := by
      intro a ha
      obtain ⟨hmem, _⟩ := List.mem_filter.mp ha
      obtain ⟨l0, _, rfl⟩ := List.mem_map.mp hmem
      exact pyStrip_idem l0
    rw [List.map_congr_left h, List.map_id]
  have hfil : ((((splitlines s).map pyStrip).filter (fun l => !l.isEmpty)).filter
        (fun l => !l.isEmpty)) =
      ((splitlines s).map pyStrip).filter (fun l => !l.isEmpty) :=
    List.filter_eq_self.mpr (fun a ha => (List.mem_filter.mp ha).2)
  show pyJoin ['\n'] (((splitlines (normalize_text s)).map pyStrip).filter
    (fun l => !l.isEmpty)) = normalize_text s
  rw [normalize_lines s, hmap, hfil]
  rfl

theorem pyStrip_head_false {s : PyStr} {c : Char} {t : PyStr} (h : pyStrip s = c :: t) :
    isPySpace c = false := by
  rcases pyStrip_eq s with h0 | ⟨c', t', _, hc', h0⟩
  · rw [h0] at h
    exact absurd h (by simp)
  · rw [h0] at h
    injection h with h1 _
    exact h1 ▸ hc'

theorem normalize_head (s : PyStr) :
    normalize_text s = [] ∨
      ∃ c t, normalize_text s = c :: t ∧ isPySpace c = false := by
  unfold normalize_text
  cases hL : ((splitlines s).map pyStrip).filter (fun l => !l.isEmpty) with
  | nil => left; rfl
  | cons l R =>
    right
    have hlmem : l ∈ ((splitlines s).map pyStrip).filter (fun l => !l.isEmpty) := by
      rw [hL]; exact List.mem_cons_self l R
    obtain ⟨hmem, hpass⟩ := List.mem_filter.mp hlmem
    obtain ⟨l0, _, hl0⟩ := List.mem_map.mp hmem
    have hlne : l ≠ [] := by
      intro hn
      rw [hn] at hpass
      simp at hpass
    obtain ⟨c, t', hct⟩ : ∃ c t', l = c :: t' := by
      cases l with
      | nil => exact absurd rfl hlne
      | cons c t' => exact ⟨c, t', rfl⟩
    have hc : isPySpace c = false := pyStrip_head_false (s := l0) (by rw [hl0, hct])
    cases R with
    | nil => exact ⟨c, t', by simp [pyJoin, hct], hc⟩
    | cons l2 R' =>
      refine ⟨c, t' ++ ['\n'] ++ pyJoin ['\n'] (l2 :: R'), ?_, hc⟩
      show pyJoin ['\n'] (l :: l2 :: R') = _
      rw [show pyJoin ['\n'] (l :: l2 :: R') = l ++ ['\n'] ++ pyJoin ['\n'] (l2 :: R') from rfl,
        hct]
      simp [List.append_assoc]

/-- C10: truncation never triggers the extraction-empty error.  Whenever the
normalized text is non-empty and max_chars is positive, the truncated text
load_sources checks still starts with a non-whitespace character, so the
"No textual content extracted" guard (strip-empty) fires exactly when the
normalized text was already empty before truncation. -/
theorem c10_truncation_preserves_nonblank (s : PyStr) (k : Int) (hk : 0 < k) :
    (normalize_text s ≠ [] →
      ∃ c t, truncateTo k (normalize_text s) = c :: t ∧ isPySpace c = false) ∧
    (pyStrip (truncateTo k (normalize_text s)) = [] ↔ normalize_text s = []) := by
  rcases normalize_head s with h0 | ⟨c, t, hct, hc⟩
  · constructor
    · intro h
      exact absurd h0 h
    · rw [h0]
      have ht : truncateTo k ([] : PyStr) = [] := by
        unfold truncateTo
        rw [if_neg (by simp; omega)]
      rw [ht]
      simp [pyStrip, List.rdropWhile]
  · obtain ⟨t', htr⟩ : ∃ t', truncateTo k (normalize_text s) = c :: t' := by
      rw [hct]
      unfold truncateTo
      by_cases hcond : k ≠ 0 ∧ (((c :: t).length : Int) > k)
      · rw [if_pos hcond]
        unfold pySliceTo
        rw [if_pos (le_of_lt hk)]
        obtain ⟨m, hm⟩ : ∃ m, k.toNat = m + 1 := ⟨k.toNat - 1, by omega⟩
        rw [hm, List.take_succ_cons]
        exact ⟨_, rfl⟩
      · rw [if_neg hcond]
        exact ⟨t, rfl⟩
    refine ⟨fun _ => ⟨c, t', htr, hc⟩, ?_⟩
    constructor
    · intro h
      rw [htr] at h
      have hmem := pyStrip_eq_nil_iff.mp h c (List.mem_cons_self c t')
      rw [hc] at hmem
      exact absurd hmem (by simp)
    · intro h
      rw [hct] at h
      exact absurd h (by simp)

/-- Witness for C10 at s = " x " and max_chars = 5. -/
theorem c10_truncation_witness :
    (normalize_text (pystr " x ") ≠ [] →
      ∃ c t, truncateTo 5 (normalize_text (pystr " x ")) = c :: t ∧ isPySpace c = false) ∧
    (pyStrip (truncateTo 5 (normalize_text (pystr " x "))) = [] ↔
      normalize_text (pystr " x ") = []) :=
  c10_truncation_preserves_nonblank (pystr " x ") 5 (by decide)

/-! ### Properties of the prompt builder -/

theorem buildParts_eq_zipWith : ∀ (l : List SourceContent) (i : Nat),
    buildParts i l = List.zipWith sourceBlock (List.range' i l.length) l := by
  intro l
  induction l with
  | nil => intro i; rfl
  | cons s rest IH =>
    intro i
    rw [show (s :: rest).length = rest.length + 1 from rfl, List.range'_succ]
    show sourceBlock i s :: buildParts (i + 1) rest = _
    rw [List.zipWith_cons_cons, IH]

/-- C1 (amended): build_prompt returns the instruction, a blank line, then
the literal header line "Context:", then the source blocks
"Source {i}: {label}\n{text}" (i counted from 1, in input order) joined by
the fixed delimiter "\n\n---\n\n".  The header "Context:\n" stands between
the instruction's blank line and the first source block. -/
theorem c1_prompt_layout (query : Option PyStr) (sources : List SourceContent) :
    build_prompt query sources =
      instructionOf query ++ pystr "\n\nContext:\n" ++
        pyJoin promptSep (List.zipWith sourceBlock (List.range' 1 sources.length) sources) := by
  unfold build_prompt
  rw [buildParts_eq_zipWith]

/-- C1 counterexample: with instruction "I" and the single source
(label "L", text "T"), the assembled prompt is
"I\n\nContext:\nSource 1: L\nT" and not the claimed
instruction-blank-line-blocks form "I\n\nSource 1: L\nT". -/
theorem c1_counterexample :
    build_prompt (some (pystr "I")) [⟨pystr "L", pystr "T"⟩] =
      pystr "I\n\nContext:\nSource 1: L\nT" ∧
    build_prompt (some (pystr "I")) [⟨pystr "L", pystr "T"⟩] ≠
      pystr "I" ++ pystr "\n\n" ++ pyJoin promptSep [sourceBlock 1 ⟨pystr "L", pystr "T"⟩] :=
  ⟨by decide, by decide⟩

theorem occursAt_of_append {pat s u v : PyStr} (h : s = u ++ pat ++ v) :
    occursAt pat s u.length := by
  subst h
  unfold occursAt
  rw [List.append_assoc, List.drop_left, List.take_left]

theorem pyJoin_infix (sep : List Char) : ∀ (xs : List PyStr) (y : PyStr) (ys : List PyStr),
    ∃ u v, pyJoin sep (xs ++ y :: ys) = u ++ y ++ v := by
  intro xs
  induction xs with
  | nil =>
    intro y ys
    cases ys with
    | nil => exact ⟨[], [], by simp [pyJoin]⟩
    | cons z zs =>
      exact ⟨[], sep ++ pyJoin sep (z :: zs), by simp [pyJoin, List.append_assoc]⟩
  | cons x xs' IH =>
    intro y ys
    obtain ⟨u, v, hu⟩ := IH y ys
    cases hx : xs' ++ y :: ys with
    | nil => exact absurd hx (by simp)
    | cons w ws =>
      refine ⟨x ++ sep ++ u, v, ?_⟩
      show pyJoin sep (x :: (xs' ++ y :: ys)) = x ++ sep ++ u ++ y ++ v
      rw [hx, show pyJoin sep (x :: w :: ws) = x ++ sep ++ pyJoin sep (w :: ws) from rfl,
        ← hx, hu]
      simp [List.append_assoc]

theorem buildParts_append : ∀ (pre : List SourceContent) (i : Nat) (s : SourceContent)
    (post : List SourceContent),
    buildParts i (pre ++ s :: post) =
      buildParts i pre ++ sourceBlock (i + pre.length) s ::
        buildParts (i + pre.length + 1) post := by
  intro pre
  induction pre with
  | nil => intro i s post; simp [buildParts]
  | cons x pre' IH =>
    intro i s post
    show sourceBlock i x :: buildParts (i + 1) (pre' ++ s :: post) = _
    rw [IH]
    simp only [buildParts, List.cons_append, List.length_cons]
    have h1 : i + 1 + pre'.length = i + (pre'.length + 1) := by omega
    rw [h1]

/-- C6: build_prompt preserves source order with 1-based ordinals.  For
sources [a, b, c] the prompt contains "Source 1: " with a's label strictly
before "Source 2: " with b's label, strictly before "Source 3: " with c's
label; and in general the block of the i-th input (here the one after any
prefix pre) carries ordinal pre.length + 1 inside the prompt. -/
theorem c6_source_order (query : Option PyStr) :
    (∀ a b c : SourceContent, ∃ p1 p2 p3, p1 < p2 ∧ p2 < p3 ∧
      occursAt (pystr "Source 1: " ++ a.label) (build_prompt query [a, b, c]) p1 ∧
      occursAt (pystr "Source 2: " ++ b.label) (build_prompt query [a, b, c]) p2 ∧
      occursAt (pystr "Source 3: " ++ c.label) (build_prompt query [a, b, c]) p3) ∧
    (∀ (pre : List SourceContent) (s : SourceContent) (post : List SourceContent),
      ∃ u v, build_prompt query (pre ++ s :: post) =
        u ++ sourceBlock (pre.length + 1) s ++ v) := by
  constructor
  · intro a b c
    have h1 : (pystr "Source " ++ (Nat.repr 1).data ++ pystr ": ") = pystr "Source 1: " := by
      decide
    have h2 : (pystr "Source " ++ (Nat.repr 2).data ++ pystr ": ") = pystr "Source 2: " := by
      decide
    have h3 : (pystr "Source " ++ (Nat.repr 3).data ++ pystr ": ") = pystr "Source 3: " := by
      decide
    have hprompt : build_prompt query [a, b, c] =
        instructionOf query ++ pystr "\n\nContext:\n" ++
          (pystr "Source 1: " ++ (a.label ++ ('\n' :: a.text)) ++ (promptSep ++
            (pystr "Source 2: " ++ (b.label ++ ('\n' :: b.text)) ++ (promptSep ++
              (pystr "Source 3: " ++ (c.label ++ ('\n' :: c.text))))))) := by
      show instructionOf query ++ pystr "\n\nContext:\n" ++
        pyJoin promptSep [sourceBlock 1 a, sourceBlock 2 b, sourceBlock 3 c] = _
      rw [show pyJoin promptSep [sourceBlock 1 a, sourceBlock 2 b, sourceBlock 3 c] =
        sourceBlock 1 a ++ promptSep ++ (sourceBlock 2 b ++ promptSep ++ sourceBlock 3 c)
        from rfl]
      unfold sourceBlock
      rw [h1, h2, h3]
      simp [List.append_assoc]
    refine ⟨(instructionOf query ++ pystr "\n\nContext:\n").length,
      (instructionOf query ++ pystr "\n\nContext:\n" ++
        (pystr "Source 1: " ++ (a.label ++ ('\n' :: a.text)) ++ promptSep)).length,
      (instructionOf query ++ pystr "\n\nContext:\n" ++
        (pystr "Source 1: " ++ (a.label ++ ('\n' :: a.text)) ++ promptSep ++
         (pystr "Source 2: " ++ (b.label ++ ('\n' :: b.text)) ++ promptSep))).length,
      ?_, ?_, ?_, ?_, ?_⟩
    · simp only [List.length_append, List.length_cons]
      have hs : promptSep.length = 7 := rfl
      have hp : (pystr "Source 1: ").length = 10 := rfl
      omega
    · simp only [List.length_append, List.length_cons]
      have hp : (pystr "Source 2: ").length = 10 := rfl
      have hs : promptSep.length = 7 := rfl
      omega
    · refine occursAt_of_append (v := ('\n' :: a.text) ++ (promptSep ++
        (pystr "Source 2: " ++ (b.label ++ ('\n' :: b.text)) ++ (promptSep ++
          (pystr "Source 3: " ++ (c.label ++ ('\n' :: c.text))))))) ?_
      rw [hprompt]
      simp [List.append_assoc]
    · refine occursAt_of_append (v := ('\n' :: b.text) ++ (promptSep ++
        (pystr "Source 3: " ++ (c.label ++ ('\n' :: c.text))))) ?_
      rw [hprompt]
      simp [List.append_assoc]
    · refine occursAt_of_append (v := '\n' :: c.text) ?_
      rw [hprompt]
      simp [List.append_assoc]
  · intro pre s post
    obtain ⟨u, v, hu⟩ := pyJoin_infix promptSep (buildParts 1 pre)
      (sourceBlock (1 + pre.length) s) (buildParts (1 + pre.length + 1) post)
    refine ⟨instructionOf query ++ pystr "\n\nContext:\n" ++ u, v, ?_⟩
    show instructionOf query ++ pystr "\n\nContext:\n" ++
      pyJoin promptSep (buildParts 1 (pre ++ s :: post)) = _
    rw [buildParts_append, hu, Nat.add_comm 1 pre.length]
    simp [List.append_assoc]

/-! ### Properties of load_sources -/

theorem load_sources_cons_error {env : Env} {mc : Int} {raw : PyStr} {rest : List PyStr}
    {e : PyErr} (h : source_raw env raw = .error e) :
    load_sources env mc (raw :: rest) = .error e := by
  unfold load_sources
  rw [h]

theorem load_sources_cons_ok {env : Env} {mc : Int} {raw : PyStr} {rest : List PyStr}
    {text0 label : PyStr} (h : source_raw env raw = .ok (text0, label)) :
    load_sources env mc (raw :: rest) =
      (if pyStrip (truncateTo mc (normalize_text text0)) = [] then
        .error (.valueError (pystr "No textual content extracted from " ++ raw))
      else
        match load_sources env mc rest with
        | .error e => .error e
        | .ok srcs => .ok (⟨label, truncateTo mc (normalize_text text0)⟩ :: srcs)) := by
  simp only [load_sources]
  rw [h]

/-- C3: every SourceContent that load_sources returns has non-blank text.
First half: whenever load_sources succeeds, each returned element's text
survives strip().  Second half: when every earlier input loads
successfully and the next input's text normalizes and truncates to blank,
load_sources raises the distinct "No textual content extracted" ValueError
naming that first blank input (so blank sources are a load failure, never
silently skipped). -/
theorem c3_loaded_text_nonblank (env : Env) (maxChars : Int) :
    (∀ (inputs : List PyStr) (srcs : List SourceContent),
      load_sources env maxChars inputs = .ok srcs →
      ∀ s ∈ srcs, pyStrip s.text ≠ []) ∧
    (∀ (pre : List PyStr) (srcsPre : List SourceContent) (raw : PyStr)
      (rest : List PyStr) (text0 label : PyStr),
      load_sources env maxChars pre = .ok srcsPre →
      source_raw env raw = .ok (text0, label) →
      pyStrip (truncateTo maxChars (normalize_text text0)) = [] →
      load_sources env maxChars (pre ++ raw :: rest) =
        .error (.valueError (pystr "No textual content extracted from " ++ raw))) := by
  constructor
  · intro inputs
    induction inputs with
    | nil =>
      intro srcs h s hs
      simp only [load_sources, Except.ok.injEq] at h
      subst h
      cases hs
    | cons raw rest IH =>
      intro srcs h s hs
      cases hsr : source_raw env raw with
      | error e =>
        rw [load_sources_cons_error hsr] at h
        simp at h
      | ok tl =>
        obtain ⟨text0, label⟩ := tl
        rw [load_sources_cons_ok hsr] at h
        by_cases hstrip : pyStrip (truncateTo maxChars (normalize_text text0)) = []
        · rw [if_pos hstrip] at h
          simp at h
        · rw [if_neg hstrip] at h
          cases hrest : load_sources env maxChars rest with
          | error e =>
            rw [hrest] at h
            simp at h
          | ok srcs' =>
            rw [hrest] at h
            simp only [Except.ok.injEq] at h
            subst h
            rcases List.mem_cons.mp hs with h1 | h1
            · rw [h1]
              exact hstrip
            · exact IH srcs' hrest s h1
  · intro pre
    induction pre with
    | nil =>
      intro srcsPre raw rest text0 label _ hsr hstrip
      rw [List.nil_append, load_sources_cons_ok hsr, if_pos hstrip]
    | cons x pre' IH =>
      intro srcsPre raw rest text0 label hpre hsr hstrip
      cases hsrx : source_raw env x with
      | error e =>
        rw [load_sources_cons_error hsrx] at hpre
        simp at hpre
      | ok tlx =>
        obtain ⟨t0, lb⟩ := tlx
        rw [load_sources_cons_ok hsrx] at hpre
        by_cases hstripx : pyStrip (truncateTo maxChars (normalize_text t0)) = []
        · rw [if_pos hstripx] at hpre
          simp at hpre
        · rw [if_neg hstripx] at hpre
          cases hrest : load_sources env maxChars pre' with
          | error e =>
            rw [hrest] at hpre
            simp at hpre
          | ok srcs' =>
            rw [List.cons_append, load_sources_cons_ok hsrx, if_neg hstripx,
              IH srcs' raw rest text0 label hrest hsr hstrip]

/-- Witness for C3: a successful run returning non-blank text, and a run
whose second input is whitespace-only failing at that input with the
distinct extraction-empty ValueError. -/
theorem c3_loaded_text_witness :
    pyStrip (pystr "Hello\nWorld") ≠ [] ∧
    load_sources envBlank 100 [pystr "good.txt", pystr "blank.txt"] =
      .error (.valueError
        (pystr "No textual content extracted from " ++ pystr "blank.txt")) :=
  ⟨(c3_loaded_text_nonblank envNotes 100).1 [pystr "notes.txt"]
      [⟨pystr "/home/user/notes.txt", pystr "Hello\nWorld"⟩] (by decide)
      ⟨pystr "/home/user/notes.txt", pystr "Hello\nWorld"⟩ (by simp),
   (c3_loaded_text_nonblank envBlank 100).2 [pystr "good.txt"]
      [⟨pystr "/tmp/good.txt", pystr "Hello"⟩] (pystr "blank.txt") []
      (pystr "  \n ") (pystr "/tmp/blank.txt") (by decide) (by decide) (by decide)⟩

theorem truncateTo_length {mc : Int} (hmc : 0 < mc) (t : PyStr) :
    ((truncateTo mc t).length : Int) ≤ mc := by
  unfold truncateTo
  by_cases hcond : mc ≠ 0 ∧ ((t.length : Int) > mc)
  · rw [if_pos hcond]
    unfold pySliceTo
    rw [if_pos (le_of_lt hmc)]
    have h := List.length_take_le mc.toNat t
    omega
  · rw [if_neg hcond]
    omega

theorem truncateTo_zero (t : PyStr) : truncateTo 0 t = t := by
  unfold truncateTo
  rw [if_neg (by simp)]

/-- C4: truncation bound.  With max_chars = k > 0 every text load_sources
returns has length at most k; with max_chars = 0 no truncation is applied
and the returned text is exactly the normalized extraction. -/
theorem c4_truncation_bound :
    (∀ (env : Env) (maxChars : Int) (inputs : List PyStr) (srcs : List SourceContent),
      0 < maxChars → load_sources env maxChars inputs = .ok srcs →
      ∀ s ∈ srcs, (s.text.length : Int) ≤ maxChars) ∧
    (∀ (env : Env) (raw text0 label : PyStr),
      source_raw env raw = .ok (text0, label) →
      pyStrip (normalize_text text0) ≠ [] →
      load_sources env 0 [raw] = .ok [⟨label, normalize_text text0⟩]) := by
  constructor
  · intro env maxChars inputs
    induction inputs with
    | nil =>
      intro srcs _ h s hs
      simp only [load_sources, Except.ok.injEq] at h
      subst h
      cases hs
    | cons raw rest IH =>
      intro srcs hmc h s hs
      cases hsr : source_raw env raw with
      | error e =>
        rw [load_sources_cons_error hsr] at h
        simp at h
      | ok tl =>
        obtain ⟨text0, label⟩ := tl
        rw [load_sources_cons_ok hsr] at h
        by_cases hstrip : pyStrip (truncateTo maxChars (normalize_text text0)) = []
        · rw [if_pos hstrip] at h
          simp at h
        · rw [if_neg hstrip] at h
          cases hrest : load_sources env maxChars rest with
          | error e =>
            rw [hrest] at h
            simp at h
          | ok srcs' =>
            rw [hrest] at h
            simp only [Except.ok.injEq] at h
            subst h
            rcases List.mem_cons.mp hs with h1 | h1
            · rw [h1]
              exact truncateTo_length hmc (normalize_text text0)
            · exact IH srcs' hmc hrest s h1
  · intro env raw text0 label h hne
    rw [load_sources_cons_ok h, truncateTo_zero, if_neg hne]
    rfl

/-- Witness for C4: the bound holds on a successful run with max_chars =
100, and a max_chars = 0 run returns the untruncated normalized text. -/
theorem c4_truncation_witness :
    ((SourceContent.mk (pystr "/home/user/notes.txt") (pystr "Hello\nWorld")).text.length : Int)
        ≤ 100 ∧
    load_sources envNotes 0 [pystr "notes.txt"] =
      .ok [⟨pystr "/home/user/notes.txt", normalize_text (pystr "Hello\n\nWorld")⟩] :=
  ⟨c4_truncation_bound.1 envNotes 100 [pystr "notes.txt"]
      [⟨pystr "/home/user/notes.txt", pystr "Hello\nWorld"⟩] (by decide) (by decide)
      ⟨pystr "/home/user/notes.txt", pystr "Hello\nWorld"⟩ (by simp),
   c4_truncation_bound.2 envNotes (pystr "notes.txt") (pystr "Hello\n\nWorld")
      (pystr "/home/user/notes.txt") (by decide) (by decide)⟩

/-- C2 counterexample: for the path input "notes.txt" — a UTF-8 file
containing "Hello\n\nWorld", working directory /home/user, default query,
max_chars = 100 — the label is the resolved absolute path
"/home/user/notes.txt", not the original command-line string, and the
assembled prompt does not contain "Source 1: notes.txt\nHello\nWorld". -/
theorem c2_counterexample :
    load_sources envNotes 100 [pystr "notes.txt"] =
      .ok [⟨pystr "/home/user/notes.txt", pystr "Hello\nWorld"⟩] ∧
    pystr "/home/user/notes.txt" ≠ pystr "notes.txt" ∧
    containsSubstr (pystr "Source 1: notes.txt\nHello\nWorld")
      (build_prompt none [⟨pystr "/home/user/notes.txt", pystr "Hello\nWorld"⟩]) = false :=
  ⟨by decide, by decide, by decide⟩

/-- C2 (amended): for every filesystem-path input accepted by load_sources,
the label of the produced SourceContent is the resolved absolute path
str(Path(raw).expanduser().resolve()) — not the original command-line
string — so for "notes.txt" under /home/user the prompt block reads
"Source 1: /home/user/notes.txt\nHello\nWorld". -/
theorem c2_label_resolved (env : Env) (maxChars : Int) (raw : PyStr)
    (s : SourceContent) (hurl : startsHttp raw = false)
    (h : load_sources env maxChars [raw] = .ok [s]) :
    s.label = env.resolve raw := by
  cases hsr : source_raw env raw with
  | error e =>
    rw [load_sources_cons_error hsr] at h
    simp at h
  | ok tl =>
    obtain ⟨text0, label⟩ := tl
    rw [load_sources_cons_ok hsr] at h
    by_cases hstrip : pyStrip (truncateTo maxChars (normalize_text text0)) = []
    · rw [if_pos hstrip] at h
      simp at h
    · rw [if_neg hstrip] at h
      rw [show load_sources env maxChars ([] : List PyStr) = .ok [] from rfl] at h
      simp only [Except.ok.injEq, List.cons.injEq, and_true] at h
      have hs : s = ⟨label, truncateTo maxChars (normalize_text text0)⟩ := h.symm
      unfold source_raw at hsr
      rw [if_neg (by simp [hurl])] at hsr
      by_cases hex : env.pathExists (env.resolve raw)
      · rw [if_pos hex] at hsr
        cases hlf : load_file env (env.resolve raw) with
        | error e =>
          rw [hlf] at hsr
          simp [Except.map] at hsr
        | ok t =>
          rw [hlf] at hsr
          simp only [Except.map, Except.ok.injEq, Prod.mk.injEq] at hsr
          rw [hs]
          exact hsr.2.symm
      · rw [if_neg hex] at hsr
        simp at hsr

/-- Witness for C2 (amended) at the notes.txt fixture. -/
theorem c2_label_resolved_witness :
    (SourceContent.mk (pystr "/home/user/notes.txt") (pystr "Hello\nWorld")).label =
      envNotes.resolve (pystr "notes.txt") :=
  c2_label_resolved envNotes 100 (pystr "notes.txt")
    ⟨pystr "/home/user/notes.txt", pystr "Hello\nWorld"⟩ (by decide) (by decide)

/-- C7 counterexample: loading /data/blob.bin (bytes 0xFF 0x61, extension
.bin) succeeds and yields "a" — the undecodable byte 0xFF is dropped, as
errors="ignore" does, not replaced with U+FFFD as the claim states. -/
theorem c7_counterexample :
    load_file envBin (pystr "/data/blob.bin") = .ok (pystr "a") ∧
    pyDecodeUtf8 true [255, 97] = ['�', 'a'] ∧
    load_file envBin (pystr "/data/blob.bin") ≠ .ok (pyDecodeUtf8 true [255, 97]) :=
  ⟨by decide, by decide, by decide⟩

/-- C7 (amended): for every file whose lower-cased extension is not one of
the recognized ones, loading never fails on undecodable bytes: load_file
always returns ok, decoding the bytes as UTF-8 best-effort with
undecodable bytes dropped (errors="ignore") rather than replaced. -/
theorem c7_fallback_ignores (env : Env) (p : PyStr)
    (h : pyLower (pySuffix p) ∉
      [pystr ".txt", pystr ".md", pystr ".rst", pystr ".csv", pystr ".docx", pystr ".pdf"]) :
    load_file env p = .ok (pyDecodeUtf8 false (env.fileBytes p)) := by
  simp only [List.mem_cons, List.not_mem_nil, or_false, not_or] at h
  obtain ⟨h1, h2, h3, h4, h5, h6⟩ := h
  simp only [load_file]
  rw [if_neg (fun hc => hc.elim h1 (fun hc' => hc'.elim h2 h3)), if_neg h4, if_neg h5,
    if_neg h6]

/-- Witness for C7 (amended) on the 0xFF 0x61 fixture file. -/
theorem c7_fallback_witness :
    load_file envBin (pystr "/data/blob.bin") =
      .ok (pyDecodeUtf8 false (envBin.fileBytes (pystr "/data/blob.bin"))) :=
  c7_fallback_ignores envBin (pystr "/data/blob.bin") (by decide)

/-- C8: with OPENAI_API_KEY unset (or set to the empty string, which
Python's truthiness check also rejects), call_llm fails with the distinct
missing-credential RuntimeError for every prompt and model — and the
result is the same for every respond function, so no client construction
or network request can have been consulted. -/
theorem c8_missing_credential (environ : PyStr → Option PyStr)
    (respond : PyStr → PyStr → Except PyErr (Option PyStr)) (prompt model : PyStr)
    (h : environ (pystr "OPENAI_API_KEY") = none ∨
      environ (pystr "OPENAI_API_KEY") = some []) :
    call_llm ⟨environ, respond⟩ prompt model = .error (.runtimeError missingKeyMsg) := by
  unfold call_llm
  rcases h with h | h
  · rw [show LLMEnv.environ ⟨environ, respond⟩ = environ from rfl, h]
  · rw [show LLMEnv.environ ⟨environ, respond⟩ = environ from rfl, h]
    rfl

/-- Witness for C8 with the unset-credential fixture. -/
theorem c8_missing_credential_witness :
    call_llm llmNoKey (pystr "p") (pystr "gpt-4o-mini") =
      .error (.runtimeError missingKeyMsg) :=
  c8_missing_credential llmNoKey.environ llmNoKey.respond (pystr "p")
    (pystr "gpt-4o-mini") (Or.inl rfl)

/-- C9: main returns exit code 0 (and no stderr line) exactly when every
stage — load, model call, output write — succeeds; any stage error e makes
it return exit code 1 with the single stderr line "error: <message of e>",
with no partial output. -/
theorem c9_exit_codes (w : World) (a : Args) :
    (mainFn w a = (0, []) ↔
      ∃ srcs resp, load_sources w.fs a.maxChars a.inputs = .ok srcs ∧
        call_llm w.llm (build_prompt a.query srcs) a.model = .ok resp ∧
        write_output w resp a.output = .ok ()) ∧
    (∀ e, runPipeline w a = .error e →
      mainFn w a = (1, [pystr "error: " ++ pyErrMsg e])) := by
  constructor
  · constructor
    · intro h
      unfold mainFn at h
      cases hr : runPipeline w a with
      | error e =>
        rw [hr] at h
        simp at h
      | ok u =>
        unfold runPipeline at hr
        cases hl : load_sources w.fs a.maxChars a.inputs with
        | error e =>
          simp only [hl] at hr
          exact Except.noConfusion hr
        | ok srcs =>
          simp only [hl] at hr
          cases hc : call_llm w.llm (build_prompt a.query srcs) a.model with
          | error e =>
            simp only [hc] at hr
            exact Except.noConfusion hr
          | ok resp =>
            simp only [hc] at hr
            exact ⟨srcs, resp, rfl, hc, hr⟩
    · rintro ⟨srcs, resp, hl, hc, hw⟩
      simp only [mainFn, runPipeline, hl, hc, hw]
  · intro e he
    unfold mainFn
    rw [he]

/-- Witness for C9: the missing-credential run exits 1 with the single
error line. -/
theorem c9_exit_codes_witness :
    mainFn worldNoKey argsNotes =
      (1, [pystr "error: " ++ pyErrMsg (.runtimeError missingKeyMsg)]) :=
  (c9_exit_codes worldNoKey argsNotes).2 (.runtimeError missingKeyMsg) (by decide)
